import Mathlib

/-!
Shallow embedding of the Clean-Architecture-Snippet user pipeline:
domain entity, DTO, mapper, repository port, the two repository adapters
(in-memory and Mongo-backed), the three use cases and the two controllers.
JavaScript dynamic values are embedded with explicit `Option` fields
(`none` = undefined/null), timestamps as `Nat`, and thrown errors as
`Except String` carrying the error message.  State (the backing stores)
is passed explicitly; every error site in the source throws before any
store mutation (validation happens first, and the modelled store rejects
atomically), so an error result leaves the state unchanged.
-/

deriving instance DecidableEq for Except

/-- A dynamically typed identifier: the in-memory adapter assigns integer
ids, the Mongo adapter and the HTTP route parameters use strings. -/
inductive IdVal where
  | num (n : Nat)
  | str (s : String)
deriving DecidableEq

/-- JavaScript whitespace skipped by parseInt. -/
def isJsSpace (c : Char) : Bool :=
  c == ' ' || c == '\t' || c == '\n' || c == '\r' || c == '\x0b' || c == '\x0c'

/-- Decimal digit value. -/
def decVal (c : Char) : Option Nat :=
  if c.isDigit then some (c.toNat - 48) else none

/-- Hexadecimal digit value. -/
def hexVal (c : Char) : Option Nat :=
  if c.isDigit then some (c.toNat - 48)
  else if 'a' ≤ c && c ≤ 'f' then some (c.toNat - 97 + 10)
  else if 'A' ≤ c && c ≤ 'F' then some (c.toNat - 65 + 10)
  else none

/-- Accumulate the value of a maximal leading digit run. -/
def parseDigitsAux (dval : Char → Option Nat) (base : Nat) : List Char → Nat → Nat
  | [], acc => acc
  | c :: cs, acc =>
    match dval c with
    | some d => parseDigitsAux dval base cs (acc * base + d)
    | none => acc

/-- Value of a maximal leading digit run; `none` when there is no digit. -/
def parseDigits (dval : Char → Option Nat) (base : Nat) : List Char → Option Nat
  | [] => none
  | c :: cs =>
    match dval c with
    | some d => some (parseDigitsAux dval base cs d)
    | none => none

/-- JavaScript `parseInt(s)` (radix argument omitted): skip whitespace,
read an optional sign, honour a `0x`/`0X` hexadecimal prefix, then read a
maximal digit run; `none` models `NaN`. -/
def jsParseIntCore (cs0 : List Char) : Option Int :=
  let cs1 := cs0.dropWhile isJsSpace
  let signed : Int × List Char :=
    match cs1 with
    | '-' :: rest => (-1, rest)
    | '+' :: rest => (1, rest)
    | _ => (1, cs1)
  match signed.2 with
  | '0' :: x :: rest =>
    if x == 'x' || x == 'X' then
      (parseDigits hexVal 16 rest).map (fun n => signed.1 * n)
    else
      (parseDigits decVal 10 ('0' :: x :: rest)).map (fun n => signed.1 * n)
  | cs => (parseDigits decVal 10 cs).map (fun n => signed.1 * n)

/-- `parseInt` on a string argument. -/
def parseIntStr (s : String) : Option Int :=
  jsParseIntCore s.data

/-- `parseInt` on a dynamically typed argument.  A number argument is first
converted to its decimal string, which parses back to the same integer. -/
def parseIntOfId : IdVal → Option Int
  | .num n => some (Int.ofNat n)
  | .str s => parseIntStr s

/-- User domain entity (src/domain/entities/user.entity.js).  Fields are
assigned verbatim from the constructor arguments; `createdAt` is the one
field the constructor defaults: `createdAt || new Date()`. -/
structure UserEntity where
  id : Option IdVal
  name : Option String
  email : Option String
  role : Option String
  createdAt : Nat
deriving DecidableEq

/-- `new UserEntity(id, name, email, role, createdAt)` evaluated when the
clock reads `now`.  The callers pass either a Date (always truthy) or
nothing for `createdAt`, so the falsy check is `Option.getD`. -/
def UserEntity.make (id : Option IdVal) (name email role : Option String)
    (createdAt : Option Nat) (now : Nat) : UserEntity :=
  { id := id, name := name, email := email, role := role,
    createdAt := createdAt.getD now }

/-- User DTO (src/domain/dtos/user.dto.ts): id, name, email, role. -/
structure UserDTO where
  id : Option IdVal
  name : Option String
  email : Option String
  role : Option String
deriving DecidableEq

/-- UserMapper.toDTO (src/application/mappers/user.mapper.ts). -/
def UserMapper.toDTO (e : UserEntity) : UserDTO :=
  { id := e.id, name := e.name, email := e.email, role := e.role }

/-- A generic raw record (`data: any`) fed to `UserMapper.toEntity`. -/
structure RawData where
  id : Option IdVal
  name : Option String
  email : Option String
  role : Option String
  createdAt : Option Nat
deriving DecidableEq

/-- UserMapper.toEntity (src/application/mappers/user.mapper.ts): passes
only `data.id, data.name, data.email, data.role` to the Entity
constructor — the `createdAt` argument is omitted, so the constructor
default applies. -/
def UserMapper.toEntity (data : RawData) (now : Nat) : UserEntity :=
  UserEntity.make data.id data.name data.email data.role none now

/-- One stored record of the in-memory adapter: the spread of the
transient entity with the assigned integer id. -/
structure MemRecord where
  id : Nat
  name : Option String
  email : Option String
  role : Option String
  createdAt : Nat
deriving DecidableEq

/-- State of the in-memory adapter: `this.users` and `this.currentId`. -/
structure MemState where
  users : List MemRecord
  currentId : Nat
deriving DecidableEq

/-- Freshly constructed InMemoryUserRepository. -/
def memInit : MemState := { users := [], currentId := 1 }

/-- Rehydration `new UserEntity(u.id, u.name, u.email, u.role, u.createdAt)`.
`createdAt` is always supplied here, so the constructor clock default is
dead code (the `now` argument 0 is unused). -/
def memRehydrate (u : MemRecord) : UserEntity :=
  UserEntity.make (some (.num u.id)) u.name u.email u.role (some u.createdAt) 0

/-- InMemoryUserRepository.create: spread the entity, assign
`id = this.currentId++`, push, return the rehydrated entity. -/
def memCreate (s : MemState) (e : UserEntity) : MemState × UserEntity :=
  let newUser : MemRecord :=
    { id := s.currentId, name := e.name, email := e.email, role := e.role,
      createdAt := e.createdAt }
  ({ users := s.users ++ [newUser], currentId := s.currentId + 1 },
   memRehydrate newUser)

/-- InMemoryUserRepository.findAll. -/
def memFindAll (s : MemState) : MemState × List UserEntity :=
  (s, s.users.map memRehydrate)

/-- The comparison `u.id === parseInt(id)`; strict equality, so a `NaN`
parse result never matches. -/
def memMatches (arg : IdVal) (u : MemRecord) : Bool :=
  parseIntOfId arg == some (Int.ofNat u.id)

/-- InMemoryUserRepository.findById. -/
def memFindById (s : MemState) (arg : IdVal) : MemState × Option UserEntity :=
  (s, (s.users.find? (memMatches arg)).map memRehydrate)

/-- Opaque store-assigned identifier of the n-th inserted document.
Modelled from the spec: the persistent store key is a "store-assigned
opaque identifier", so the model uses a simple injective encoding. -/
def oidOf (n : Nat) : String := String.mk (List.replicate (n + 1) 'x')

/-- Modelled from the spec: the store raises a cast error for ids that
are structurally invalid ("malformed opaque identifier"); in this model
exactly the strings of the generator format are well formed. -/
def isValidOid (s : String) : Bool :=
  decide (0 < s.length) && s.data.all (fun c => c == 'x')

/-- One document of the persistent store. Modelled from the spec:
`{name: string, email: string (unique), role: string (default "user"),
createdAt: timestamp (default now)}`, keyed by a store-assigned opaque
identifier. -/
structure MongoRecord where
  id : String
  name : String
  email : String
  role : String
  createdAt : Nat
deriving DecidableEq

/-- State of the modelled persistent store, with its id generator. -/
structure MongoState where
  docs : List MongoRecord
  nextOid : Nat
deriving DecidableEq

/-- Empty persistent store. -/
def mongoInit : MongoState := { docs := [], nextOid := 0 }

/-- The fields passed to `new UserModel({...})`. -/
structure MongoFields where
  name : Option String
  email : Option String
  role : Option String
deriving DecidableEq

/-- Modelled from the spec: `userModel.save()` on the external document
store.  `name` and `email` are required, `email` has a unique index (a
duplicate is rejected atomically), `role` defaults to "user", `createdAt`
defaults to the current time; documents are returned in insertion order. -/
def storeSave (now : Nat) (s : MongoState) (f : MongoFields) :
    Except String (MongoState × MongoRecord) :=
  match f.name, f.email with
  | some n, some e =>
    if s.docs.any (fun d => d.email == e) then
      .error "E11000 duplicate key error"
    else
      let r : MongoRecord :=
        { id := oidOf s.nextOid, name := n, email := e,
          role := f.role.getD "user", createdAt := now }
      .ok ({ docs := s.docs ++ [r], nextOid := s.nextOid + 1 }, r)
  | _, _ => .error "User validation failed"

/-- Modelled from the spec: `UserModel.findById(id)` on the store; a
structurally invalid id raises a cast error. -/
def storeFindById (s : MongoState) (id : String) : Except String (Option MongoRecord) :=
  if isValidOid id then .ok (s.docs.find? (fun d => d.id == id))
  else .error "CastError"

/-- MongoUserRepository private `_mapToEntity`: passes `_id.toString(),
name, email, role` — `createdAt` is omitted, so the Entity constructor
defaults it to the current time. -/
def mongoMapToEntity (now : Nat) (d : MongoRecord) : UserEntity :=
  UserEntity.make (some (.str d.id)) (some d.name) (some d.email) (some d.role) none now

/-- MongoUserRepository.create: build the model from `name, email, role`
of the entity, save, map the saved document back to an entity.  A store
failure propagates. -/
def mongoCreate (now : Nat) (s : MongoState) (e : UserEntity) :
    Except String (MongoState × UserEntity) :=
  match storeSave now s { name := e.name, email := e.email, role := e.role } with
  | .error m => .error m
  | .ok (s2, saved) => .ok (s2, mongoMapToEntity now saved)

/-- MongoUserRepository.findAll. -/
def mongoFindAll (now : Nat) (s : MongoState) : MongoState × List UserEntity :=
  (s, s.docs.map (mongoMapToEntity now))

/-- MongoUserRepository.findById: the store call is wrapped in
try/catch; any store error (malformed id cast error) is converted to an
absent result.  A non-string argument fails the cast as well. -/
def mongoFindById (now : Nat) (s : MongoState) : IdVal → MongoState × Option UserEntity
  | .num _ => (s, none)
  | .str id =>
    match storeFindById s id with
    | .error _ => (s, none)
    | .ok o => (s, o.map (mongoMapToEntity now))

/-- The repository port: the three operations every adapter provides.
Each takes the current clock and the adapter state. -/
structure Repo (σ : Type) where
  create : Nat → σ → UserEntity → Except String (σ × UserEntity)
  findAll : Nat → σ → Except String (σ × List UserEntity)
  findById : Nat → σ → IdVal → Except String (σ × Option UserEntity)

/-- The in-memory adapter as a port instance (it never throws). -/
def memRepo : Repo MemState :=
  { create := fun _ s e => .ok (memCreate s e)
    findAll := fun _ s => .ok (memFindAll s)
    findById := fun _ s id => .ok (memFindById s id) }

/-- The Mongo adapter as a port instance. -/
def mongoRepo : Repo MongoState :=
  { create := mongoCreate
    findAll := fun now s => .ok (mongoFindAll now s)
    findById := fun now s id => .ok (mongoFindById now s id) }

/-- The JavaScript falsy test on an optional string field
(undefined, null and the empty string are falsy). -/
def falsyStr : Option String → Bool
  | none => true
  | some s => s == ""

/-- JavaScript `v || d` on an optional string. -/
def jsOrStr (o : Option String) (d : String) : String :=
  match o with
  | some v => if v == "" then d else v
  | none => d

/-- The deserialized request body `{name, email, role?}`; fields are
optional because nothing validates the body before the use case runs. -/
structure CreateUserRequest where
  name : Option String
  email : Option String
  role : Option String
deriving DecidableEq

/-- The transient entity built by CreateUserUseCase.execute:
`new UserEntity(null, name, email, role || 'user')`. -/
def CreateUserUseCase.newEntity (data : CreateUserRequest) (now : Nat) : UserEntity :=
  UserEntity.make none data.name data.email (some (jsOrStr data.role "user")) none now

/-- CreateUserUseCase.execute (src/application/use-cases, part_004):
validate `!name || !email`, build the transient entity, persist through
the port, map the result to a DTO. -/
def CreateUserUseCase.execute {σ : Type} (R : Repo σ) (now : Nat) (s : σ)
    (data : CreateUserRequest) : Except String (σ × UserDTO) :=
  if falsyStr data.name || falsyStr data.email then
    .error "Name and email are required"
  else
    match R.create now s (CreateUserUseCase.newEntity data now) with
    | .error m => .error m
    | .ok (s2, created) => .ok (s2, UserMapper.toDTO created)

/-- GetAllUsersUseCase.execute. -/
def GetAllUsersUseCase.execute {σ : Type} (R : Repo σ) (now : Nat) (s : σ) :
    Except String (σ × List UserDTO) :=
  match R.findAll now s with
  | .error m => .error m
  | .ok (s2, users) => .ok (s2, users.map UserMapper.toDTO)

/-- GetUserByIdUseCase.execute: absent port result throws
"User not found". -/
def GetUserByIdUseCase.execute {σ : Type} (R : Repo σ) (now : Nat) (s : σ)
    (id : IdVal) : Except String (σ × UserDTO) :=
  match R.findById now s id with
  | .error m => .error m
  | .ok (_, none) => .error "User not found"
  | .ok (s2, some u) => .ok (s2, UserMapper.toDTO u)

/-- The `data` payload of the response envelope. -/
inductive RespData where
  | one (d : UserDTO)
  | many (ds : List UserDTO)
deriving DecidableEq

/-- The response envelope produced by sendResponse
(src/infrastructure/utils/response.util.ts); `data` defaults to null. -/
structure HttpResponse where
  status : Nat
  success : Bool
  message : String
  data : Option RespData
deriving DecidableEq

/-- sendResponse. -/
def sendResponse (statusCode : Nat) (success : Bool) (message : String)
    (data : Option RespData) : HttpResponse :=
  { status := statusCode, success := success, message := message, data := data }

/-- CreateUserController.handle: 201 envelope on success; every caught
error becomes a 400 envelope with the error message. -/
def CreateUserController.handle {σ : Type} (R : Repo σ) (now : Nat) (s : σ)
    (body : CreateUserRequest) : σ × HttpResponse :=
  match CreateUserUseCase.execute R now s body with
  | .ok (s2, dto) =>
    (s2, sendResponse 201 true "User created successfully" (some (.one dto)))
  | .error m => (s, sendResponse 400 false m none)

/-- GetUsersController.getAll: 200 on success, 500 on any caught error. -/
def GetUsersController.getAll {σ : Type} (R : Repo σ) (now : Nat) (s : σ) :
    σ × HttpResponse :=
  match GetAllUsersUseCase.execute R now s with
  | .ok (s2, dtos) =>
    (s2, sendResponse 200 true "Users retrieved successfully" (some (.many dtos)))
  | .error m => (s, sendResponse 500 false m none)

/-- GetUsersController.getById: 200 on success; a caught error whose
message is exactly "User not found" becomes 404, anything else 500. -/
def GetUsersController.getById {σ : Type} (R : Repo σ) (now : Nat) (s : σ)
    (id : IdVal) : σ × HttpResponse :=
  match GetUserByIdUseCase.execute R now s id with
  | .ok (s2, dto) =>
    (s2, sendResponse 200 true "User retrieved successfully" (some (.one dto)))
  | .error m =>
    if m == "User not found" then (s, sendResponse 404 false m none)
    else (s, sendResponse 500 false m none)

/-- A port instance whose operations all fail, exercising the
controllers on propagated adapter failures (the port is duck-typed, so
any failing implementation can be wired in). -/
def failRepo : Repo Unit :=
  { create := fun _ _ _ => .error "boom"
    findAll := fun _ _ => .error "boom"
    findById := fun _ _ _ => .error "boom" }

/-- Claim C2: on an input whose name or email is empty or absent,
CreateUser.execute throws the validation error "Name and email are
required", for any adapter, and the controller answers 400 with the
adapter state untouched — the throw happens before the port is called,
so no record is persisted. -/
theorem C2_validation_atomic {σ : Type} (R : Repo σ) (now : Nat) (s : σ)
    (data : CreateUserRequest)
    (h : falsyStr data.name = true ∨ falsyStr data.email = true) :
    CreateUserUseCase.execute R now s data = .error "Name and email are required" ∧
    CreateUserController.handle R now s data =
      (s, sendResponse 400 false "Name and email are required" none) := by
  have hcond : (falsyStr data.name || falsyStr data.email) = true := by
    rcases h with h | h <;> simp [h]
  constructor
  · simp [CreateUserUseCase.execute, hcond]
  · simp [CreateUserController.handle, CreateUserUseCase.execute, hcond]

theorem C2_validation_atomic_witness :
    CreateUserUseCase.execute memRepo 0 memInit
        { name := none, email := some "x", role := none }
      = .error "Name and email are required" ∧
    CreateUserController.handle memRepo 0 memInit
        { name := none, email := some "x", role := none }
      = (memInit, sendResponse 400 false "Name and email are required" none) :=
  C2_validation_atomic memRepo 0 memInit
    { name := none, email := some "x", role := none } (Or.inl (by decide))

/-- Claim C4, counterexample: a store failure raised during create (a
duplicate-email rejection by the unique index) reaches
CreateUserController.handle, which answers 400, not 500 — the create
controller maps every caught error to 400. -/
theorem C4_cex :
    CreateUserController.handle mongoRepo 0
        { docs := [{ id := oidOf 0, name := "a", email := "e", role := "user",
                     createdAt := 0 }], nextOid := 1 }
        { name := some "b", email := some "e", role := none }
      = ({ docs := [{ id := oidOf 0, name := "a", email := "e", role := "user",
                      createdAt := 0 }], nextOid := 1 },
         sendResponse 400 false "E11000 duplicate key error" none) ∧
    (400 : Nat) ≠ 500 := by decide

/-- Claim C4, amended: a failure propagated to GetUsersController.getAll
yields 500 with success=false, and a failure other than "User not found"
propagated to GetUsersController.getById yields 500 with success=false;
but every failure propagated to CreateUserController.handle — including
adapter/store failures raised during create — yields 400, not 500. -/
theorem C4_error_statuses {σ : Type} (R : Repo σ) (now : Nat) (s : σ) (m : String)
    (body : CreateUserRequest) (id : IdVal) :
    (CreateUserUseCase.execute R now s body = .error m →
      CreateUserController.handle R now s body = (s, sendResponse 400 false m none)) ∧
    (GetAllUsersUseCase.execute R now s = .error m →
      GetUsersController.getAll R now s = (s, sendResponse 500 false m none)) ∧
    (GetUserByIdUseCase.execute R now s id = .error m → m ≠ "User not found" →
      GetUsersController.getById R now s id = (s, sendResponse 500 false m none)) := by
  refine ⟨fun h => ?_, fun h => ?_, fun h hm => ?_⟩
  · simp [CreateUserController.handle, h]
  · simp [GetUsersController.getAll, h]
  · simp [GetUsersController.getById, h, hm]

theorem C4_error_statuses_witness :
    CreateUserController.handle failRepo 0 ()
        { name := some "a", email := some "b", role := none }
      = ((), sendResponse 400 false "boom" none) ∧
    GetUsersController.getAll failRepo 0 () = ((), sendResponse 500 false "boom" none) ∧
    GetUsersController.getById failRepo 0 () (.str "q")
      = ((), sendResponse 500 false "boom" none) := by
  have h := C4_error_statuses failRepo 0 () "boom"
    { name := some "a", email := some "b", role := none } (.str "q")
  exact ⟨h.1 (by decide), h.2.1 (by decide), h.2.2 (by decide) (by decide)⟩

/-- Claim C6, counterexample: with `role` present but equal to the empty
string, the transient entity built by CreateUser gets role "user", not
the supplied empty string — the source uses the falsy test `role ||
'user'`, not nullish coalescing. -/
theorem C6_cex :
    (CreateUserUseCase.newEntity
        { name := some "a", email := some "b", role := some "" } 0).role
      = some "user" ∧
    (some "user" : Option String) ≠ some "" := by decide

/-- Claim C6, amended: for valid input CreateUser.execute builds the
transient entity with `role = data.role || "user"` — the default applies
whenever `data.role` is absent, null or the empty string, and the
supplied role is kept exactly when it is a non-empty string — then calls
the port create on that entity and maps the result to a DTO. -/
theorem C6_role_default {σ : Type} (R : Repo σ) (now : Nat) (s : σ)
    (data : CreateUserRequest)
    (hname : falsyStr data.name = false) (hemail : falsyStr data.email = false) :
    (CreateUserUseCase.newEntity data now).role = some (jsOrStr data.role "user") ∧
    ((data.role = none ∨ data.role = some "") → jsOrStr data.role "user" = "user") ∧
    (∀ r : String, data.role = some r → r ≠ "" → jsOrStr data.role "user" = r) ∧
    CreateUserUseCase.execute R now s data =
      (match R.create now s (CreateUserUseCase.newEntity data now) with
       | .error m => .error m
       | .ok (s2, created) => .ok (s2, UserMapper.toDTO created)) := by
  refine ⟨rfl, fun h => ?_, fun r hr hne => ?_, ?_⟩
  · rcases h with h | h <;> simp [jsOrStr, h]
  · simp [jsOrStr, hr, hne]
  · simp [CreateUserUseCase.execute, hname, hemail]

theorem C6_role_default_witness :
    (CreateUserUseCase.newEntity
        { name := some "a", email := some "b", role := some "admin" } 5).role
      = some "admin" := by
  have h := (C6_role_default memRepo 5 memInit
    { name := some "a", email := some "b", role := some "admin" }
    (by decide) (by decide)).1
  simpa [jsOrStr] using h

/-- Claim C8, counterexample: `UserMapper.toEntity` on a record with
every field missing does not leave `createdAt` unset — the entity
constructor defaults it to the current clock value, so the result
depends on when it is called. -/
theorem C8_cex :
    (UserMapper.toEntity
        { id := none, name := none, email := none, role := none, createdAt := none }
        42).createdAt = 42 ∧
    (UserMapper.toEntity
        { id := none, name := none, email := none, role := none, createdAt := none }
        7).createdAt = 7 ∧
    UserMapper.toEntity
        { id := none, name := none, email := none, role := none, createdAt := none } 42
      ≠ UserMapper.toEntity
        { id := none, name := none, email := none, role := none, createdAt := none } 7 := by
  decide

/-- Claim C8, amended: `UserMapper.toEntity` never fails and copies
`id`, `name`, `email` and `role` verbatim — missing ones stay
undefined — but `createdAt` is always replaced by the current time: the
mapper does not forward `data.createdAt` and the entity constructor
defaults the missing argument to `new Date()`. -/
theorem C8_toEntity_fields (data : RawData) (now : Nat) :
    (UserMapper.toEntity data now).id = data.id ∧
    (UserMapper.toEntity data now).name = data.name ∧
    (UserMapper.toEntity data now).email = data.email ∧
    (UserMapper.toEntity data now).role = data.role ∧
    (UserMapper.toEntity data now).createdAt = now :=
  ⟨rfl, rfl, rfl, rfl, rfl⟩

/-- Claim C9: when GetUserById.execute fails, GetUsersController.getById
picks the status by comparing the error message with the exact string
"User not found": 404 if and only if the message is that string —
whatever produced the error — and 500 otherwise. -/
theorem C9_getById_message_dispatch {σ : Type} (R : Repo σ) (now : Nat) (s : σ)
    (id : IdVal) (m : String)
    (h : GetUserByIdUseCase.execute R now s id = .error m) :
    GetUsersController.getById R now s id =
      (s, sendResponse (if m = "User not found" then 404 else 500) false m none) ∧
    ((GetUsersController.getById R now s id).2.status = 404 ↔ m = "User not found") := by
  by_cases hm : m = "User not found" <;>
    simp [GetUsersController.getById, h, hm, sendResponse]

theorem C9_getById_message_dispatch_witness :
    GetUsersController.getById memRepo 0 memInit (.str "q")
      = (memInit, sendResponse 404 false "User not found" none) := by
  have h := (C9_getById_message_dispatch memRepo 0 memInit (.str "q")
    "User not found" (by decide)).1
  simpa using h

/-- The Mongo adapter findById leaves the store untouched. -/
theorem mongoFindById_fst (now : Nat) (s : MongoState) (id : IdVal) :
    (mongoFindById now s id).1 = s := by
  cases id with
  | num n => rfl
  | str t => cases h : storeFindById s t <;> simp [mongoFindById, h]

/-- Claim C3: whenever the Mongo adapter findById yields an absent
result — in particular whenever the underlying store errors on a
structurally invalid id, an error the adapter catches and converts to
absent — GetUserById.execute fails with exactly "User not found" (the
adapter never propagates any failure from findById), and the controller
answers 404. -/
theorem C3_absent_404 (now : Nat) (s : MongoState) (id : IdVal)
    (h : (mongoFindById now s id).2 = none) :
    GetUserByIdUseCase.execute mongoRepo now s id = .error "User not found" ∧
    GetUsersController.getById mongoRepo now s id
      = (s, sendResponse 404 false "User not found" none) ∧
    (∀ sid e, storeFindById s sid = .error e → (mongoFindById now s (.str sid)).2 = none) ∧
    (∀ id2 : IdVal, ∃ r, mongoRepo.findById now s id2 = .ok r) := by
  have hpair : mongoFindById now s id = (s, none) := by
    have h1 := mongoFindById_fst now s id
    cases hp : mongoFindById now s id
    rw [hp] at h1 h
    simp at h1 h
    simp [h1, h]
  have hexec : GetUserByIdUseCase.execute mongoRepo now s id = .error "User not found" := by
    simp [GetUserByIdUseCase.execute, mongoRepo, hpair]
  refine ⟨hexec, ?_, ?_, ?_⟩
  · simp [GetUsersController.getById, hexec]
  · intro sid e hst
    simp [mongoFindById, hst]
  · intro id2
    exact ⟨mongoFindById now s id2, rfl⟩

theorem C3_absent_404_witness :
    (mongoFindById 0 mongoInit (.str "zzz")).2 = none ∧
    GetUserByIdUseCase.execute mongoRepo 0 mongoInit (.str "zzz")
      = .error "User not found" ∧
    GetUsersController.getById mongoRepo 0 mongoInit (.str "zzz")
      = (mongoInit, sendResponse 404 false "User not found" none) :=
  ⟨by decide, (C3_absent_404 0 mongoInit (.str "zzz") (by decide)).1,
   (C3_absent_404 0 mongoInit (.str "zzz") (by decide)).2.1⟩

/-- If an element satisfies the predicate and is the only one in the
list that does, find? returns it. -/
theorem find?_eq_some_of_unique {α : Type} {l : List α} {p : α → Bool} {u : α}
    (hmem : u ∈ l) (hpu : p u = true)
    (huniq : ∀ v ∈ l, p v = true → v = u) :
    l.find? p = some u := by
  induction l with
  | nil => cases hmem
  | cons a t ih =>
    rcases List.mem_cons.mp hmem with rfl | hmem2
    · exact List.find?_cons_of_pos t hpu
    · cases hp : p a with
      | false =>
        rw [List.find?_cons_of_neg t (by simp [hp])]
        exact ih hmem2 (fun v hv hpv => huniq v (List.mem_cons_of_mem a hv) hpv)
      | true =>
        have ha : a = u := huniq a (List.mem_cons_self a t) hp
        subst ha
        exact List.find?_cons_of_pos t hp

/-- Claim C10, counterexample: parseInt skips leading whitespace, so the
string " 1", whose first character is not a digit, still returns the
stored user with id 1 instead of the absent result the claim predicts
for strings with no leading digits. -/
theorem C10_cex :
    (memFindById
        { users := [{ id := 1, name := some "a", email := some "b",
                      role := some "user", createdAt := 0 }], currentId := 2 }
        (.str " 1")).2
      = some (memRehydrate
          { id := 1, name := some "a", email := some "b",
            role := some "user", createdAt := 0 }) ∧
    (" 1").data.head? = some ' ' ∧
    (' ').isDigit = false := by decide

/-- Claim C10, amended: the in-memory findById compares stored ids with
`parseInt` of the supplied string, and parseInt skips leading
whitespace, honours an optional sign and a hex prefix, then reads the
maximal digit run.  So for a stored user with id n, every string whose
parseInt value is n (for example "1abc") returns that user — assuming
the stored ids are distinct, as adapter-assigned ids are — and every
string parseInt cannot parse at all (NaN) returns absent. -/
theorem C10_parseInt_lookup (s : MemState) (str : String) :
    (parseIntStr str = none → (memFindById s (.str str)).2 = none) ∧
    (∀ u ∈ s.users, (s.users.map MemRecord.id).Nodup →
      parseIntStr str = some (Int.ofNat u.id) →
      (memFindById s (.str str)).2 = some (memRehydrate u)) := by
  constructor
  · intro h
    have hall : s.users.find? (memMatches (.str str)) = none := by
      rw [List.find?_eq_none]
      intro u _
      simp [memMatches, parseIntOfId, h]
    simp [memFindById, hall]
  · intro u hu hnd hp
    have hpu : memMatches (.str str) u = true := by
      simp [memMatches, parseIntOfId, hp]
    have huniq : ∀ v ∈ s.users, memMatches (.str str) v = true → v = u := by
      intro v hv hpv
      simp [memMatches, parseIntOfId, hp] at hpv
      exact List.inj_on_of_nodup_map hnd hv hu (by omega)
    have hfind : s.users.find? (memMatches (.str str)) = some u :=
      find?_eq_some_of_unique hu hpu huniq
    simp [memFindById, hfind]

theorem C10_parseInt_lookup_witness :
    parseIntStr "1abc" = some 1 ∧
    (memFindById
        { users := [{ id := 1, name := some "a", email := some "b",
                      role := some "user", createdAt := 0 }], currentId := 2 }
        (.str "1abc")).2
      = some (memRehydrate
          { id := 1, name := some "a", email := some "b",
            role := some "user", createdAt := 0 }) :=
  ⟨by decide,
   (C10_parseInt_lookup
      { users := [{ id := 1, name := some "a", email := some "b",
                    role := some "user", createdAt := 0 }], currentId := 2 }
      "1abc").2
     { id := 1, name := some "a", email := some "b",
       role := some "user", createdAt := 0 }
     (by decide) (by decide) (by decide)⟩


/-- The record the in-memory adapter stores when CreateUser persists a
valid request: the transient entity fields with the assigned id. -/
def memRecOf (data : CreateUserRequest) (cid now : Nat) : MemRecord :=
  { id := cid, name := data.name, email := data.email,
    role := some (jsOrStr data.role "user"), createdAt := now }

/-- On a valid request, CreateUser.execute against the in-memory adapter
appends exactly one record — the input fields with the next id — bumps
the id counter, and returns the DTO of the rehydrated record. -/
theorem createUser_mem_ok (now : Nat) (s : MemState) (data : CreateUserRequest)
    (hname : falsyStr data.name = false) (hemail : falsyStr data.email = false) :
    CreateUserUseCase.execute memRepo now s data =
      .ok ({ users := s.users ++ [memRecOf data s.currentId now],
             currentId := s.currentId + 1 },
           UserMapper.toDTO (memRehydrate (memRecOf data s.currentId now))) := by
  have hcond : (falsyStr data.name || falsyStr data.email) = false := by
    simp [hname, hemail]
  simp [CreateUserUseCase.execute, hcond, memRepo, memCreate, memRecOf,
    CreateUserUseCase.newEntity, UserEntity.make]

theorem createUser_mem_ok_witness :
    CreateUserUseCase.execute memRepo 9 memInit
        { name := some "n", email := some "e", role := none }
      = .ok ({ users := [memRecOf { name := some "n", email := some "e", role := none } 1 9],
               currentId := 2 },
             UserMapper.toDTO (memRehydrate
               (memRecOf { name := some "n", email := some "e", role := none } 1 9))) :=
  createUser_mem_ok 9 memInit { name := some "n", email := some "e", role := none }
    (by decide) (by decide)

/-- Claim C1, counterexample: with role supplied as the empty string the
created-then-fetched DTO carries role "user", not the supplied role —
`role || 'user'` also replaces an empty-string role, so the fetched DTO
does not equal the created input. -/
theorem C1_cex :
    CreateUserUseCase.execute memRepo 0 memInit
        { name := some "a", email := some "b", role := some "" }
      = .ok ({ users := [memRecOf { name := some "a", email := some "b", role := some "" } 1 0],
               currentId := 2 },
             { id := some (.num 1), name := some "a", email := some "b",
               role := some "user" }) ∧
    GetUserByIdUseCase.execute memRepo 0
        { users := [memRecOf { name := some "a", email := some "b", role := some "" } 1 0],
          currentId := 2 }
        (.num 1)
      = .ok ({ users := [memRecOf { name := some "a", email := some "b", role := some "" } 1 0],
               currentId := 2 },
             { id := some (.num 1), name := some "a", email := some "b",
               role := some "user" }) ∧
    (some "user" : Option String) ≠ some "" := by decide

/-- Claim C1, amended: for every input with non-empty name and email,
CreateUser.execute against the in-memory adapter succeeds, and
GetUserById.execute on the id the create returned yields a DTO with the
same id whose name and email equal the input and whose role is the
input role when that is a non-empty string and "user" when the role was
omitted or empty (the source applies `role || 'user'`).  The hypothesis
on the state — every stored id is below the id counter — is the
invariant every reachable adapter state satisfies. -/
theorem C1_roundtrip (now now2 : Nat) (s : MemState) (data : CreateUserRequest)
    (hinv : ∀ u ∈ s.users, u.id < s.currentId)
    (hname : falsyStr data.name = false) (hemail : falsyStr data.email = false) :
    ∃ s1 dto1 idv dto2,
      CreateUserUseCase.execute memRepo now s data = .ok (s1, dto1) ∧
      dto1.id = some idv ∧
      GetUserByIdUseCase.execute memRepo now2 s1 idv = .ok (s1, dto2) ∧
      dto2.name = data.name ∧ dto2.email = data.email ∧
      dto2.role = some (jsOrStr data.role "user") ∧
      dto2.id = dto1.id := by
  refine ⟨{ users := s.users ++ [memRecOf data s.currentId now],
            currentId := s.currentId + 1 },
    UserMapper.toDTO (memRehydrate (memRecOf data s.currentId now)),
    .num s.currentId,
    UserMapper.toDTO (memRehydrate (memRecOf data s.currentId now)),
    createUser_mem_ok now s data hname hemail, rfl, ?_, rfl, rfl, rfl, rfl⟩
  have hnone : s.users.find? (memMatches (.num s.currentId)) = none := by
    rw [List.find?_eq_none]
    intro u hu
    have hlt := hinv u hu
    simp [memMatches, parseIntOfId]
    omega
  have hfind : (s.users ++ [memRecOf data s.currentId now]).find?
      (memMatches (.num s.currentId)) = some (memRecOf data s.currentId now) := by
    rw [List.find?_append, hnone]
    simp [memMatches, parseIntOfId, memRecOf]
  simp [GetUserByIdUseCase.execute, memRepo, memFindById, hfind]

theorem C1_roundtrip_witness :
    ∃ s1 dto1 idv dto2,
      CreateUserUseCase.execute memRepo 3 memInit
          { name := some "John", email := some "j@x.com", role := none }
        = .ok (s1, dto1) ∧
      dto1.id = some idv ∧
      GetUserByIdUseCase.execute memRepo 4 s1 idv = .ok (s1, dto2) ∧
      dto2.name = some "John" ∧ dto2.email = some "j@x.com" ∧
      dto2.role = some (jsOrStr none "user") ∧
      dto2.id = dto1.id :=
  C1_roundtrip 3 4 memInit
    { name := some "John", email := some "j@x.com", role := none }
    (by decide) (by decide) (by decide)

/-- Iterate CreateUser.execute against the in-memory adapter, threading
the state of each successful call. -/
def runCreates (now : Nat) (s : MemState) : List CreateUserRequest → MemState
  | [] => s
  | d :: ds =>
    match CreateUserUseCase.execute memRepo now s d with
    | .ok (s2, _) => runCreates now s2 ds
    | .error _ => runCreates now s ds

/-- The records a list of valid creates appends, ids counting up from
`startId`. -/
def expectedRecs (now startId : Nat) : List CreateUserRequest → List MemRecord
  | [] => []
  | d :: ds => memRecOf d startId now :: expectedRecs now (startId + 1) ds

theorem expectedRecs_length (now k : Nat) (datas : List CreateUserRequest) :
    (expectedRecs now k datas).length = datas.length := by
  induction datas generalizing k with
  | nil => rfl
  | cons d ds ih => simp [expectedRecs, ih]

theorem expectedRecs_rows (now k : Nat) (datas : List CreateUserRequest) :
    (expectedRecs now k datas).map (fun r => (r.name, r.email, r.role))
      = datas.map (fun d => (d.name, d.email, some (jsOrStr d.role "user"))) := by
  induction datas generalizing k with
  | nil => rfl
  | cons d ds ih => simp [expectedRecs, memRecOf, ih]

/-- Valid creates append their records in order and advance the id
counter by their number. -/
theorem runCreates_spec (now : Nat) (datas : List CreateUserRequest) (s : MemState)
    (hval : ∀ d ∈ datas, falsyStr d.name = false ∧ falsyStr d.email = false) :
    runCreates now s datas
      = { users := s.users ++ expectedRecs now s.currentId datas,
          currentId := s.currentId + datas.length } := by
  induction datas generalizing s with
  | nil => simp [runCreates, expectedRecs]
  | cons d ds ih =>
    have hd := hval d (List.mem_cons_self d ds)
    have hstep := createUser_mem_ok now s d hd.1 hd.2
    simp only [runCreates, hstep]
    rw [ih _ (fun d2 h2 => hval d2 (List.mem_cons_of_mem d h2))]
    simp only [expectedRecs, MemState.mk.injEq]
    exact ⟨by simp, by simp only [List.length_cons]; omega⟩

/-- Claim C7: GetAllUsers.execute on the empty store returns the empty
list; after N valid creates it succeeds with exactly N DTOs, the k-th
DTO carrying the name, email and (defaulted) role of the k-th creation —
insertion order — and it returns the store state unchanged. -/
theorem C7_getAllUsers (now now2 : Nat) (datas : List CreateUserRequest)
    (hval : ∀ d ∈ datas, falsyStr d.name = false ∧ falsyStr d.email = false) :
    GetAllUsersUseCase.execute memRepo now2 memInit = .ok (memInit, []) ∧
    (∃ dtos,
      GetAllUsersUseCase.execute memRepo now2 (runCreates now memInit datas)
        = .ok (runCreates now memInit datas, dtos) ∧
      dtos.length = datas.length ∧
      dtos.map (fun dto => (dto.name, dto.email, dto.role))
        = datas.map (fun d => (d.name, d.email, some (jsOrStr d.role "user")))) := by
  refine ⟨rfl, ((expectedRecs now 1 datas).map memRehydrate).map UserMapper.toDTO,
    ?_, ?_, ?_⟩
  · rw [runCreates_spec now datas memInit hval]
    rfl
  · simp [expectedRecs_length]
  · rw [List.map_map, List.map_map]
    exact expectedRecs_rows now 1 datas

theorem C7_getAllUsers_witness :
    GetAllUsersUseCase.execute memRepo 7 memInit = .ok (memInit, []) ∧
    (∃ dtos,
      GetAllUsersUseCase.execute memRepo 7
          (runCreates 5 memInit
            [{ name := some "a", email := some "b", role := none },
             { name := some "c", email := some "d", role := some "admin" }])
        = .ok (runCreates 5 memInit
            [{ name := some "a", email := some "b", role := none },
             { name := some "c", email := some "d", role := some "admin" }], dtos) ∧
      dtos.length = List.length
        [({ name := some "a", email := some "b", role := none } : CreateUserRequest),
         { name := some "c", email := some "d", role := some "admin" }] ∧
      dtos.map (fun dto => (dto.name, dto.email, dto.role))
        = List.map (fun d => (d.name, d.email, some (jsOrStr d.role "user")))
            [({ name := some "a", email := some "b", role := none } : CreateUserRequest),
             { name := some "c", email := some "d", role := some "admin" }]) :=
  C7_getAllUsers 5 7
    [{ name := some "a", email := some "b", role := none },
     { name := some "c", email := some "d", role := some "admin" }]
    (by decide)

/-- One use-case invocation of a trace, with the id of a getById request
given as the index of the stored user it targets (each adapter encodes
that user id in its own identifier format). -/
inductive Op where
  | create (data : CreateUserRequest)
  | getAll
  | getByIdIx (i : Nat)
deriving DecidableEq

/-- The observable projection of a DTO the substitutability contract
compares: name, email and role (ids are adapter-specific). -/
def dtoObs (d : UserDTO) : Option String × Option String × Option String :=
  (d.name, d.email, d.role)

/-- The observable outcome of one use-case invocation: success with the
projected DTO(s), or failure. -/
inductive Obs where
  | okOne (row : Option String × Option String × Option String)
  | okMany (rows : List (Option String × Option String × Option String))
  | fail
deriving DecidableEq

/-- An adapter wired behind the use cases: its port instance, its empty
starting state, and its encoding of the i-th stored user id. -/
structure AdapterSem (σ : Type) where
  repo : Repo σ
  init : σ
  idOfIx : σ → Nat → IdVal

/-- The in-memory adapter id of the i-th stored user (a string no
adapter id matches when the index is out of range). -/
def memIdOfIx (s : MemState) (i : Nat) : IdVal :=
  match s.users.get? i with
  | some u => .num u.id
  | none => .str "missing"

/-- The Mongo adapter id of the i-th stored document. -/
def mongoIdOfIx (s : MongoState) (i : Nat) : IdVal :=
  match s.docs.get? i with
  | some d => .str d.id
  | none => .str "missing"

/-- The in-memory adapter wired behind the use cases. -/
def memSem : AdapterSem MemState :=
  { repo := memRepo, init := memInit, idOfIx := memIdOfIx }

/-- The Mongo adapter wired behind the use cases. -/
def mongoSem : AdapterSem MongoState :=
  { repo := mongoRepo, init := mongoInit, idOfIx := mongoIdOfIx }

/-- Execute one trace operation through the matching use case and
project the observable outcome. -/
def stepOp {σ : Type} (A : AdapterSem σ) (now : Nat) (s : σ) : Op → σ × Obs
  | .create data =>
    match CreateUserUseCase.execute A.repo now s data with
    | .ok (s2, dto) => (s2, .okOne (dtoObs dto))
    | .error _ => (s, .fail)
  | .getAll =>
    match GetAllUsersUseCase.execute A.repo now s with
    | .ok (s2, dtos) => (s2, .okMany (dtos.map dtoObs))
    | .error _ => (s, .fail)
  | .getByIdIx i =>
    match GetUserByIdUseCase.execute A.repo now s (A.idOfIx s i) with
    | .ok (s2, dto) => (s2, .okOne (dtoObs dto))
    | .error _ => (s, .fail)

/-- Run a trace from a given state, collecting the observations. -/
def runOpsFrom {σ : Type} (A : AdapterSem σ) (now : Nat) (s : σ) :
    List Op → σ × List Obs
  | [] => (s, [])
  | op :: ops =>
    ((runOpsFrom A now (stepOp A now s op).1 ops).1,
     (stepOp A now s op).2 :: (runOpsFrom A now (stepOp A now s op).1 ops).2)

/-- Run a trace from the adapter's empty state. -/
def runOps {σ : Type} (A : AdapterSem σ) (now : Nat) (ops : List Op) : List Obs :=
  (runOpsFrom A now A.init ops).2

/-- The emails the create operations of a trace submit. -/
def opEmails : List Op → List String
  | [] => []
  | .create d :: ops => d.email.toList ++ opEmails ops
  | .getAll :: ops => opEmails ops
  | .getByIdIx _ :: ops => opEmails ops

/-- The simulation relation between the two adapter states: the stored
name/email/role rows coincide, the in-memory ids are exactly 1..N with
the counter at N+1, and the Mongo ids are exactly the first N generated
identifiers with the generator at N. -/
def SimInv (s1 : MemState) (s2 : MongoState) : Prop :=
  s1.users.map (fun u => (u.name, u.email, u.role))
    = s2.docs.map (fun d => (some d.name, some d.email, some d.role)) ∧
  s1.users.map MemRecord.id = List.range' 1 s1.users.length ∧
  s1.currentId = s1.users.length + 1 ∧
  s2.docs.map MongoRecord.id = (List.range s2.docs.length).map oidOf ∧
  s2.nextOid = s2.docs.length

theorem oidOf_inj : Function.Injective oidOf := by
  intro a b h
  have h2 : (oidOf a).data.length = (oidOf b).data.length := by rw [h]
  simpa [oidOf] using h2

theorem isValidOid_oidOf (n : Nat) : isValidOid (oidOf n) = true := by
  simp [isValidOid, oidOf, List.all_eq_true, List.mem_replicate]

theorem SimInv_init : SimInv memInit mongoInit := by
  simp [SimInv, memInit, mongoInit]

/-- The document the modelled store inserts when CreateUser persists a
valid request with name `n` and email `e`. -/
def mongoRecOf (data : CreateUserRequest) (n e : String) (oid now : Nat) : MongoRecord :=
  { id := oidOf oid, name := n, email := e,
    role := jsOrStr data.role "user", createdAt := now }

/-- A create on invalid input fails identically behind any adapter. -/
theorem step_create_invalid {σ : Type} (A : AdapterSem σ) (now : Nat) (s : σ)
    (data : CreateUserRequest)
    (h : (falsyStr data.name || falsyStr data.email) = true) :
    stepOp A now s (.create data) = (s, .fail) := by
  simp [stepOp, CreateUserUseCase.execute, h]

/-- On a valid request whose email is not yet stored, CreateUser.execute
against the Mongo adapter inserts exactly one document and returns its
DTO. -/
theorem createUser_mongo_ok (now : Nat) (s : MongoState) (data : CreateUserRequest)
    (n e : String) (hn : data.name = some n) (he : data.email = some e)
    (hne : n ≠ "") (hee : e ≠ "")
    (hfresh : ∀ d ∈ s.docs, d.email ≠ e) :
    CreateUserUseCase.execute mongoRepo now s data =
      .ok ({ docs := s.docs ++ [mongoRecOf data n e s.nextOid now],
             nextOid := s.nextOid + 1 },
           UserMapper.toDTO (mongoMapToEntity now (mongoRecOf data n e s.nextOid now))) := by
  have hcond : (falsyStr data.name || falsyStr data.email) = false := by
    rw [hn, he]
    simp [falsyStr, hne, hee]
  have hdup : s.docs.any (fun d => d.email == e) = false := by
    simp only [List.any_eq_false]
    intro d hd
    simp [hfresh d hd]
  simp [CreateUserUseCase.execute, hcond, mongoRepo, mongoCreate, falsyStr, hne, hee,
    CreateUserUseCase.newEntity, UserEntity.make, storeSave, hn, he, hdup, mongoRecOf]

/-- GetAllUsers against the in-memory adapter observes the stored rows. -/
theorem step_getAll_mem (now : Nat) (s1 : MemState) :
    stepOp memSem now s1 .getAll
      = (s1, .okMany (s1.users.map (fun u => (u.name, u.email, u.role)))) := by
  show (s1, Obs.okMany (((s1.users.map memRehydrate).map UserMapper.toDTO).map dtoObs)) = _
  rw [List.map_map, List.map_map]
  rfl

/-- GetAllUsers against the Mongo adapter observes the stored rows. -/
theorem step_getAll_mongo (now : Nat) (s2 : MongoState) :
    stepOp mongoSem now s2 .getAll
      = (s2, .okMany (s2.docs.map (fun d => (some d.name, some d.email, some d.role)))) := by
  show (s2, Obs.okMany (((s2.docs.map (mongoMapToEntity now)).map UserMapper.toDTO).map dtoObs)) = _
  rw [List.map_map, List.map_map]
  rfl

/-- An out-of-range getById fails behind the in-memory adapter. -/
theorem step_getById_missing_mem (now : Nat) (s1 : MemState)
    (i : Nat) (hlen : s1.users.length ≤ i) :
    stepOp memSem now s1 (.getByIdIx i) = (s1, .fail) := by
  have hid : memIdOfIx s1 i = .str "missing" := by
    simp [memIdOfIx, List.getElem?_eq_none hlen]
  have hm : parseIntStr "missing" = none := by decide
  have hfind : s1.users.find? (memMatches (.str "missing")) = none := by
    rw [List.find?_eq_none]
    intro u _
    simp [memMatches, parseIntOfId, hm]
  simp [stepOp, memSem, GetUserByIdUseCase.execute, memRepo, memFindById, hid, hfind]

/-- An out-of-range getById fails behind the Mongo adapter. -/
theorem step_getById_missing_mongo (now : Nat) (s2 : MongoState)
    (i : Nat) (hlen : s2.docs.length ≤ i) :
    stepOp mongoSem now s2 (.getByIdIx i) = (s2, .fail) := by
  have hid : mongoIdOfIx s2 i = .str "missing" := by
    simp [mongoIdOfIx, List.getElem?_eq_none hlen]
  have hval : isValidOid "missing" = false := by decide
  simp [stepOp, mongoSem, GetUserByIdUseCase.execute, mongoRepo, mongoFindById,
    storeFindById, hid, hval]

/-- A getById at index i behind the in-memory adapter observes the
stored row at i, provided stored ids are distinct. -/
theorem step_getById_hit_mem (now : Nat) (s1 : MemState) (i : Nat) (u : MemRecord)
    (hget : s1.users.get? i = some u)
    (hnd : (s1.users.map MemRecord.id).Nodup) :
    stepOp memSem now s1 (.getByIdIx i)
      = (s1, .okOne (u.name, u.email, u.role)) := by
  have hget2 : s1.users[i]? = some u := by simpa using hget
  have hid : memIdOfIx s1 i = .num u.id := by simp [memIdOfIx, hget2]
  have hmem : u ∈ s1.users := List.get?_mem hget
  have hpu : memMatches (.num u.id) u = true := by simp [memMatches, parseIntOfId]
  have huniq : ∀ v ∈ s1.users, memMatches (.num u.id) v = true → v = u := by
    intro v hv hpv
    simp [memMatches, parseIntOfId] at hpv
    exact List.inj_on_of_nodup_map hnd hv hmem (by omega)
  have hfind := find?_eq_some_of_unique hmem hpu huniq
  simp [stepOp, memSem, GetUserByIdUseCase.execute, memRepo, memFindById, hid, hfind,
    memRehydrate, UserEntity.make, UserMapper.toDTO, dtoObs]

/-- A getById at index i behind the Mongo adapter observes the stored
row at i, provided the stored ids are the generated ones. -/
theorem step_getById_hit_mongo (now : Nat) (s2 : MongoState) (i : Nat) (d : MongoRecord)
    (hget : s2.docs.get? i = some d)
    (hids : s2.docs.map MongoRecord.id = (List.range s2.docs.length).map oidOf) :
    stepOp mongoSem now s2 (.getByIdIx i)
      = (s2, .okOne (some d.name, some d.email, some d.role)) := by
  have hget2 : s2.docs[i]? = some d := by simpa using hget
  have hid : mongoIdOfIx s2 i = .str d.id := by simp [mongoIdOfIx, hget2]
  have hmem : d ∈ s2.docs := List.get?_mem hget
  have hnd : (s2.docs.map MongoRecord.id).Nodup := by
    rw [hids]
    exact (List.nodup_range _).map oidOf_inj
  have hdid : ∃ k, d.id = oidOf k := by
    have hin : d.id ∈ s2.docs.map MongoRecord.id := List.mem_map_of_mem _ hmem
    rw [hids] at hin
    obtain ⟨k, _, hk⟩ := List.mem_map.mp hin
    exact ⟨k, hk.symm⟩
  obtain ⟨k, hk⟩ := hdid
  have hvalid : isValidOid d.id = true := by rw [hk]; exact isValidOid_oidOf k
  have hpu : (fun d2 : MongoRecord => d2.id == d.id) d = true := by simp
  have huniq : ∀ v ∈ s2.docs, (fun d2 : MongoRecord => d2.id == d.id) v = true → v = d := by
    intro v hv hpv
    simp at hpv
    exact List.inj_on_of_nodup_map hnd hv hmem hpv
  have hfind := find?_eq_some_of_unique hmem hpu huniq
  simp [stepOp, mongoSem, GetUserByIdUseCase.execute, mongoRepo, mongoFindById,
    storeFindById, hid, hvalid, hfind, mongoMapToEntity, UserEntity.make,
    UserMapper.toDTO, dtoObs]

/-- Simulation run lemma: from related adapter states, with the pending
create emails pairwise distinct and none of them already stored, the
in-memory and Mongo adapters produce identical observation traces. -/
theorem simRun (now : Nat) (ops : List Op) (s1 : MemState) (s2 : MongoState)
    (hinv : SimInv s1 s2)
    (hnd : (opEmails ops).Nodup)
    (hfresh : ∀ e2 ∈ opEmails ops, e2 ∉ s2.docs.map MongoRecord.email) :
    (runOpsFrom memSem now s1 ops).2 = (runOpsFrom mongoSem now s2 ops).2 := by
  induction ops generalizing s1 s2 with
  | nil => rfl
  | cons op rest ih =>
    obtain ⟨hproj, hids1, hcid, hids2, hoid⟩ := hinv
    have hlen : s1.users.length = s2.docs.length := by
      have h := congrArg List.length hproj
      simpa using h
    cases op with
    | create data =>
      have hsplit : opEmails (Op.create data :: rest)
          = data.email.toList ++ opEmails rest := rfl
      rw [hsplit] at hnd hfresh
      cases hc : (falsyStr data.name || falsyStr data.email) with
      | true =>
        have h1 := step_create_invalid memSem now s1 data hc
        have h2 := step_create_invalid mongoSem now s2 data hc
        simp only [runOpsFrom, h1, h2]
        rw [ih s1 s2 ⟨hproj, hids1, hcid, hids2, hoid⟩ hnd.of_append_right
          (fun e2 he2 => hfresh e2 (List.mem_append_right _ he2))]
      | false =>
        obtain ⟨hname, hemail⟩ := Bool.or_eq_false_iff.mp hc
        obtain ⟨n, hn⟩ : ∃ n, data.name = some n := by
          cases hx : data.name
          · rw [hx] at hname; simp [falsyStr] at hname
          · exact ⟨_, rfl⟩
        obtain ⟨e, he⟩ : ∃ e, data.email = some e := by
          cases hx : data.email
          · rw [hx] at hemail; simp [falsyStr] at hemail
          · exact ⟨_, rfl⟩
        have hne : n ≠ "" := by
          rw [hn] at hname; simpa [falsyStr] using hname
        have hee : e ≠ "" := by
          rw [he] at hemail; simpa [falsyStr] using hemail
        rw [he] at hnd hfresh
        have hndc := List.nodup_cons.mp hnd
        have hefresh : ∀ d ∈ s2.docs, d.email ≠ e := by
          intro d hd hde
          have hmem : e ∈ e :: opEmails rest := List.mem_cons_self e _
          exact hfresh e hmem (by rw [← hde]; exact List.mem_map_of_mem _ hd)
        have h1 := createUser_mem_ok now s1 data hname hemail
        have h2 := createUser_mongo_ok now s2 data n e hn he hne hee hefresh
        have hs1 : stepOp memSem now s1 (.create data)
            = ({ users := s1.users ++ [memRecOf data s1.currentId now],
                 currentId := s1.currentId + 1 },
               .okOne (some n, some e, some (jsOrStr data.role "user"))) := by
          simp only [stepOp, memSem]
          rw [h1]
          show (_, Obs.okOne (data.name, data.email, some (jsOrStr data.role "user"))) = _
          rw [hn, he]
        have hs2 : stepOp mongoSem now s2 (.create data)
            = ({ docs := s2.docs ++ [mongoRecOf data n e s2.nextOid now],
                 nextOid := s2.nextOid + 1 },
               .okOne (some n, some e, some (jsOrStr data.role "user"))) := by
          simp only [stepOp, mongoSem]
          rw [h2]
          rfl
        simp only [runOpsFrom, hs1, hs2]
        rw [ih _ _ ?_ hndc.2 ?_]
        · refine ⟨?_, ?_, ?_, ?_, ?_⟩
          · simp only [List.map_append, hproj]
            simp [memRecOf, mongoRecOf, hn, he]
          · rw [List.map_append, hids1]
            simp [memRecOf, hcid, List.range'_concat, Nat.add_comm]
          · simp [List.length_append, hcid]
          · rw [List.map_append, hids2, hoid]
            simp [mongoRecOf, List.range_succ]
          · simp [List.length_append, hoid]
        · intro e2 he2
          rw [List.map_append]
          intro hcontra
          rcases List.mem_append.mp hcontra with hold | hnew
          · exact hfresh e2 (List.mem_cons_of_mem e he2) hold
          · have he2e : e2 = e := by
              simpa [mongoRecOf] using hnew
            exact hndc.1 (he2e ▸ he2)
    | getAll =>
      have hsplit : opEmails (Op.getAll :: rest) = opEmails rest := rfl
      rw [hsplit] at hnd hfresh
      have h1 := step_getAll_mem now s1
      have h2 := step_getAll_mongo now s2
      simp only [runOpsFrom, h1, h2, hproj]
      rw [ih s1 s2 ⟨hproj, hids1, hcid, hids2, hoid⟩ hnd hfresh]
    | getByIdIx i =>
      have hsplit : opEmails (Op.getByIdIx i :: rest) = opEmails rest := rfl
      rw [hsplit] at hnd hfresh
      by_cases hi : i < s1.users.length
      · obtain ⟨u, hu⟩ : ∃ u, s1.users.get? i = some u := ⟨_, List.get?_eq_get hi⟩
        have hi2 : i < s2.docs.length := hlen ▸ hi
        obtain ⟨d, hd⟩ : ∃ d, s2.docs.get? i = some d := ⟨_, List.get?_eq_get hi2⟩
        have hnd1 : (s1.users.map MemRecord.id).Nodup := by
          rw [hids1]; exact List.nodup_range' _ _
        have h1 := step_getById_hit_mem now s1 i u hu hnd1
        have h2 := step_getById_hit_mongo now s2 i d hd hids2
        have hobs : (u.name, u.email, u.role) = (some d.name, some d.email, some d.role) := by
          have hcg := congrArg (fun l => l.get? i) hproj
          simp only [List.get?_map, hu, hd, Option.map_some'] at hcg
          exact Option.some.inj hcg
        rw [hobs] at h1
        simp only [runOpsFrom, h1, h2]
        rw [ih s1 s2 ⟨hproj, hids1, hcid, hids2, hoid⟩ hnd hfresh]
      · have hge : s1.users.length ≤ i := Nat.le_of_not_lt hi
        have h1 := step_getById_missing_mem now s1 i hge
        have h2 := step_getById_missing_mongo now s2 i (hlen ▸ hge)
        simp only [runOpsFrom, h1, h2]
        rw [ih s1 s2 ⟨hproj, hids1, hcid, hids2, hoid⟩ hnd hfresh]

/-- Claim C5, counterexample: the same two-create trace — two valid
inputs sharing an email — succeeds twice behind the in-memory adapter
but fails on the second create behind the Mongo adapter, whose store
enforces the unique email index, so the observable outcomes differ. -/
theorem C5_cex :
    runOps memSem 0
        [.create { name := some "a", email := some "e", role := none },
         .create { name := some "b", email := some "e", role := none }]
      = [.okOne (some "a", some "e", some "user"),
         .okOne (some "b", some "e", some "user")] ∧
    runOps mongoSem 0
        [.create { name := some "a", email := some "e", role := none },
         .create { name := some "b", email := some "e", role := none }]
      = [.okOne (some "a", some "e", some "user"), .fail] ∧
    runOps memSem 0
        [.create { name := some "a", email := some "e", role := none },
         .create { name := some "b", email := some "e", role := none }]
      ≠ runOps mongoSem 0
        [.create { name := some "a", email := some "e", role := none },
         .create { name := some "b", email := some "e", role := none }] := by decide

/-- Claim C5, amended: swapping the in-memory adapter for the Mongo
adapter behind the same use cases preserves every invocation's
success/failure outcome and the name/email/role of every returned DTO —
ids are compared through each adapter's own encoding of the targeted
stored user — provided the emails submitted by the trace's creates are
pairwise distinct (the Mongo store's unique email index rejects a
duplicate that the in-memory adapter accepts). -/
theorem C5_substitutability (now : Nat) (ops : List Op)
    (hnd : (opEmails ops).Nodup) :
    runOps memSem now ops = runOps mongoSem now ops :=
  simRun now ops memInit mongoInit SimInv_init hnd
    (fun _ _ h => absurd h (by simp [mongoInit]))

theorem C5_substitutability_witness :
    (opEmails
        [.create { name := some "John", email := some "j@x.com", role := none },
         .getAll, .getByIdIx 0, .getByIdIx 5,
         .create { name := some "Ann", email := some "a@x.com", role := some "admin" },
         .getAll, .getByIdIx 1]).Nodup ∧
    runOps memSem 2
        [.create { name := some "John", email := some "j@x.com", role := none },
         .getAll, .getByIdIx 0, .getByIdIx 5,
         .create { name := some "Ann", email := some "a@x.com", role := some "admin" },
         .getAll, .getByIdIx 1]
      = runOps mongoSem 2
        [.create { name := some "John", email := some "j@x.com", role := none },
         .getAll, .getByIdIx 0, .getByIdIx 5,
         .create { name := some "Ann", email := some "a@x.com", role := some "admin" },
         .getAll, .getByIdIx 1] :=
  ⟨by decide,
   C5_substitutability 2
     [.create { name := some "John", email := some "j@x.com", role := none },
      .getAll, .getByIdIx 0, .getByIdIx 5,
      .create { name := some "Ann", email := some "a@x.com", role := some "admin" },
      .getAll, .getByIdIx 1]
     (by decide)⟩
